import Mathlib

/-!
Shallow embedding of the movement/collision reconciliation code of the
Among-Us map walkthrough repository.

Embedded source files:
* `src/characterControls.ts` — `CharacterControls.update` (the variant
  present in the repository source tree: camera-relative WASD movement,
  no collision query) together with its vector math, which follows the
  three.js `Vector3` operations it calls (`normalize` divides by
  `length() || 1`, so the zero vector normalizes to itself).
* `PhysicsManager` (two variants): `checkCharacterCollision` with the
  bounding-box fallback loop, `checkGhostCollision`, and `update`
  (fixed-timestep `stepSimulation`).
* `index.ts` — the per-frame `animate` loop glue.

Real-valued scalars are modelled by `ℝ`; the floating-point rounding of
the engine is outside the scope of these claims.
-/

namespace Skeld

/-- A 3-component vector, as three.js `Vector3`. -/
@[ext] structure Vec3 where
  x : ℝ
  y : ℝ
  z : ℝ

namespace Vec3

instance : Zero Vec3 := ⟨⟨0, 0, 0⟩⟩
instance : Add Vec3 := ⟨fun a b => ⟨a.x + b.x, a.y + b.y, a.z + b.z⟩⟩
instance : Neg Vec3 := ⟨fun a => ⟨-a.x, -a.y, -a.z⟩⟩
instance : Sub Vec3 := ⟨fun a b => ⟨a.x - b.x, a.y - b.y, a.z - b.z⟩⟩

@[simp] lemma zero_x : (0 : Vec3).x = 0 := rfl
@[simp] lemma zero_y : (0 : Vec3).y = 0 := rfl
@[simp] lemma zero_z : (0 : Vec3).z = 0 := rfl
@[simp] lemma add_x (a b : Vec3) : (a + b).x = a.x + b.x := rfl
@[simp] lemma add_y (a b : Vec3) : (a + b).y = a.y + b.y := rfl
@[simp] lemma add_z (a b : Vec3) : (a + b).z = a.z + b.z := rfl
@[simp] lemma sub_x (a b : Vec3) : (a - b).x = a.x - b.x := rfl
@[simp] lemma sub_y (a b : Vec3) : (a - b).y = a.y - b.y := rfl
@[simp] lemma sub_z (a b : Vec3) : (a - b).z = a.z - b.z := rfl

@[simp] lemma mk_eq_zero (a b c : ℝ) :
    (Vec3.mk a b c = 0) ↔ (a = 0 ∧ b = 0 ∧ c = 0) := by
  constructor
  · intro h
    refine ⟨congrArg Vec3.x h, congrArg Vec3.y h, congrArg Vec3.z h⟩
  · rintro ⟨h1, h2, h3⟩
    subst h1; subst h2; subst h3; rfl

@[simp] lemma add_zero_v (a : Vec3) : a + 0 = a := by ext <;> simp
@[simp] lemma zero_add_v (a : Vec3) : 0 + a = a := by ext <;> simp
@[simp] lemma add_sub_cancel_v (a d : Vec3) : (a + d) - a = d := by ext <;> simp
@[simp] lemma sub_self_v (a : Vec3) : a - a = 0 := by ext <;> simp

/-- three.js `Vector3.multiplyScalar`. -/
def scale (c : ℝ) (v : Vec3) : Vec3 := ⟨c * v.x, c * v.y, c * v.z⟩

@[simp] lemma scale_x (c : ℝ) (v : Vec3) : (scale c v).x = c * v.x := rfl
@[simp] lemma scale_y (c : ℝ) (v : Vec3) : (scale c v).y = c * v.y := rfl
@[simp] lemma scale_z (c : ℝ) (v : Vec3) : (scale c v).z = c * v.z := rfl

@[simp] lemma scale_zero_v (c : ℝ) : scale c (0 : Vec3) = 0 := by ext <;> simp [scale]

/-- three.js `Vector3.length`: the Euclidean norm. -/
noncomputable def length (v : Vec3) : ℝ := Real.sqrt (v.x ^ 2 + v.y ^ 2 + v.z ^ 2)

lemma length_nonneg (v : Vec3) : 0 ≤ length v := Real.sqrt_nonneg _

@[simp] lemma length_zero_v : length (0 : Vec3) = 0 := by simp [length]

lemma length_eq_zero_iff (v : Vec3) : length v = 0 ↔ v = 0 := by
  unfold length
  rw [Real.sqrt_eq_zero (by positivity)]
  constructor
  · intro h
    have hx : v.x = 0 := by nlinarith [sq_nonneg v.x, sq_nonneg v.y, sq_nonneg v.z]
    have hy : v.y = 0 := by nlinarith [sq_nonneg v.x, sq_nonneg v.y, sq_nonneg v.z]
    have hz : v.z = 0 := by nlinarith [sq_nonneg v.x, sq_nonneg v.y, sq_nonneg v.z]
    ext <;> simp [hx, hy, hz]
  · intro h; subst h; simp

lemma length_scale (c : ℝ) (v : Vec3) : length (scale c v) = |c| * length v := by
  unfold length scale
  have : (c * v.x) ^ 2 + (c * v.y) ^ 2 + (c * v.z) ^ 2
      = c ^ 2 * (v.x ^ 2 + v.y ^ 2 + v.z ^ 2) := by ring
  rw [this, Real.sqrt_mul (sq_nonneg c), Real.sqrt_sq_eq_abs]

/-- three.js `Vector3.normalize`: `divideScalar(length() || 1)`, so the zero
vector (length `0`) is divided by `1` and left unchanged. -/
noncomputable def normalize (v : Vec3) : Vec3 :=
  if length v = 0 then v else scale (length v)⁻¹ v

@[simp] lemma normalize_zero_v : normalize (0 : Vec3) = 0 := by
  simp [normalize]

lemma length_normalize (v : Vec3) (h : v ≠ 0) : length (normalize v) = 1 := by
  have hl : length v ≠ 0 := fun hc => h ((length_eq_zero_iff v).mp hc)
  have hpos : 0 < length v := lt_of_le_of_ne (length_nonneg v) (Ne.symm hl)
  unfold normalize
  rw [if_neg hl, length_scale, abs_of_pos (inv_pos.mpr hpos), inv_mul_cancel₀ hl]

lemma normalize_of_length_one (v : Vec3) (h : length v = 1) : normalize v = v := by
  unfold normalize
  rw [if_neg (by rw [h]; norm_num), h]
  ext <;> simp

lemma normalize_y_zero (v : Vec3) (h : v.y = 0) : (normalize v).y = 0 := by
  unfold normalize
  split <;> simp [h]

/-- three.js `Vector3.crossVectors a b` (`a × b`). -/
def cross (a b : Vec3) : Vec3 :=
  ⟨a.y * b.z - a.z * b.y, a.z * b.x - a.x * b.z, a.x * b.y - a.y * b.x⟩

@[simp] lemma cross_x (a b : Vec3) : (cross a b).x = a.y * b.z - a.z * b.y := rfl
@[simp] lemma cross_y (a b : Vec3) : (cross a b).y = a.z * b.x - a.x * b.z := rfl
@[simp] lemma cross_z (a b : Vec3) : (cross a b).z = a.x * b.y - a.y * b.x := rfl

/-- three.js `Vector3.distanceTo`. -/
noncomputable def distanceTo (a b : Vec3) : ℝ := length (a - b)

end Vec3

/-- JavaScript `Math.atan2 y x`. -/
noncomputable def atan2 (y x : ℝ) : ℝ :=
  if 0 < x then Real.arctan (y / x)
  else if x < 0 ∧ 0 ≤ y then Real.arctan (y / x) + Real.pi
  else if x < 0 ∧ y < 0 then Real.arctan (y / x) - Real.pi
  else if x = 0 ∧ 0 < y then Real.pi / 2
  else if x = 0 ∧ y < 0 then -(Real.pi / 2)
  else 0

/-! ## CharacterControls (`src/characterControls.ts`) -/

open Classical

/-- The held movement keys consulted by `CharacterControls.update`
(`keysPressed[W]`, `[S]`, `[A]`, `[D]`). -/
structure KeySet where
  w : Bool
  a : Bool
  s : Bool
  d : Bool

/-- Lines 81–86 of `CharacterControls.update`: the raw movement intent.
`W` does `z -= 1`, `S` does `z += 1`, `A` does `x -= 1`, `D` does `x += 1`
starting from `(0,0,0)`. -/
def moveDirectionOf (keys : KeySet) : Vec3 :=
  ⟨(if keys.d then (1 : ℝ) else 0) - (if keys.a then 1 else 0), 0,
   (if keys.s then (1 : ℝ) else 0) - (if keys.w then 1 else 0)⟩

/-- Field `CharacterControls.walkSpeed`. -/
def walkSpeed : ℝ := 2.5

/-- Field `CharacterControls.runSpeed`. -/
def runSpeed : ℝ := 5.0

/-- Field `CharacterControls.cameraHeight` (first-person eye height). -/
def cameraHeight : ℝ := 1.8

/-- Line 119: `const speed = this.toggleRun ? this.runSpeed : this.walkSpeed`. -/
def speedOf (toggleRun : Bool) : ℝ := if toggleRun then runSpeed else walkSpeed

/-- Lines 89–92: `camera.getWorldDirection`, then `y = 0`. -/
def flatten (v : Vec3) : Vec3 := ⟨v.x, 0, v.z⟩

@[simp] lemma flatten_x (v : Vec3) : (flatten v).x = v.x := rfl
@[simp] lemma flatten_y (v : Vec3) : (flatten v).y = 0 := rfl
@[simp] lemma flatten_z (v : Vec3) : (flatten v).z = v.z := rfl

/-- The flattened, normalized camera direction (lines 89–92). -/
noncomputable def flatCameraDir (cam : Vec3) : Vec3 := Vec3.normalize (flatten cam)

/-- Lines 109–110: `cameraRight = normalize(cross((0,1,0), cameraDirection))`. -/
noncomputable def cameraRight (cam : Vec3) : Vec3 :=
  Vec3.normalize (Vec3.cross ⟨0, 1, 0⟩ (flatCameraDir cam))

/-- Lines 105–120: the per-frame displacement committed to the camera rig.
The raw intent is normalized, combined with the flattened camera forward
direction (weighted `-moveDirection.z`) and the camera right vector
(weighted `moveDirection.x`), normalized again, and scaled by
`speed * delta`. -/
noncomputable def displacementOf (toggleRun : Bool) (delta : ℝ) (keys : KeySet)
    (cam : Vec3) : Vec3 :=
  let intent := Vec3.normalize (moveDirectionOf keys)
  let u := flatCameraDir cam
  let r := cameraRight cam
  Vec3.scale (speedOf toggleRun * delta)
    (Vec3.normalize (Vec3.scale (-intent.z) u + Vec3.scale intent.x r))

/-- Calls issued against the animation player and mixer during one
`update` call. -/
inductive AnimCmd where
  | fadeOut (clip : String) (dur : ℝ)
  | reset (clip : String)
  | fadeIn (clip : String) (dur : ℝ)
  | play (clip : String)
  | mixerUpdate (dt : ℝ)

/-- Lines 101–103: the clip resolved for this frame (`Idle` when the
intent is zero, otherwise `Run`/`Walk` by the run toggle). -/
noncomputable def resolvedClip (toggleRun : Bool) (keys : KeySet) : String :=
  if 0 < Vec3.length (moveDirectionOf keys) then
    (if toggleRun then "Run" else "Walk")
  else "Idle"

/-- Lines 133–141: if the resolved clip differs from `currentAction`,
fade out the current clip, then reset + fade in + play the new one, and
record the new clip as current; otherwise do nothing. Returns the new
`currentAction` and the player calls issued. -/
def animSwitch (current target : String) : String × List AnimCmd :=
  if current ≠ target then
    (target, [AnimCmd.fadeOut current 0.2, AnimCmd.reset target,
              AnimCmd.fadeIn target 0.2, AnimCmd.play target])
  else (current, [])

/-- The mutable fields of `CharacterControls` (and of the camera rig it
drives) that `update` touches: the model transform, the
`controls.getObject()` position, the current clip name and the run
toggle. -/
structure CCState where
  modelPos : Vec3
  modelRotY : ℝ
  controlsPos : Vec3
  currentAction : String
  toggleRun : Bool

/-- The method `CharacterControls.update(delta, keysPressed)` (lines 77–160),
embedded as a function from the pre-state and the frame inputs (elapsed
time, held keys, camera world direction, `controls.isLocked`) to the
post-state and the list of animation-player calls issued.
`mixer.update(delta)` runs unconditionally at the end. -/
noncomputable def CCupdate (st : CCState) (delta : ℝ) (keys : KeySet) (cam : Vec3)
    (isLocked : Bool) : CCState × List AnimCmd :=
  if isLocked then
    let u := flatCameraDir cam
    let rotY := atan2 u.x u.z + Real.pi
    if 0 < Vec3.length (moveDirectionOf keys) then
      let disp := displacementOf st.toggleRun delta keys cam
      let cpos := st.controlsPos + disp
      let mpos : Vec3 := ⟨cpos.x, cpos.y - cameraHeight, cpos.z⟩
      let sw := animSwitch st.currentAction (if st.toggleRun then "Run" else "Walk")
      ({ st with modelPos := mpos, modelRotY := rotY, controlsPos := cpos,
                 currentAction := sw.1 },
       sw.2 ++ [AnimCmd.mixerUpdate delta])
    else
      let sw := animSwitch st.currentAction "Idle"
      ({ st with modelRotY := rotY, currentAction := sw.1 },
       sw.2 ++ [AnimCmd.mixerUpdate delta])
  else
    let u := flatCameraDir cam
    let rotY := atan2 u.x u.z + Real.pi
    ({ st with
        modelPos := ⟨st.controlsPos.x, st.controlsPos.y - cameraHeight,
                     st.controlsPos.z⟩,
        modelRotY := rotY },
     [AnimCmd.mixerUpdate delta])

/-! ## Helper lemmas about the embedded operations -/

lemma Vec3.length_pos_of_ne (v : Vec3) (h : v ≠ 0) : 0 < Vec3.length v :=
  lt_of_le_of_ne (Vec3.length_nonneg v)
    (fun hc => h ((Vec3.length_eq_zero_iff v).mp hc.symm))

lemma moveDirectionOf_y (keys : KeySet) : (moveDirectionOf keys).y = 0 := rfl

lemma animSwitch_of_ne {current target : String} (h : current ≠ target) :
    animSwitch current target =
      (target, [AnimCmd.fadeOut current 0.2, AnimCmd.reset target,
                AnimCmd.fadeIn target 0.2, AnimCmd.play target]) := by
  simp [animSwitch, h]

lemma animSwitch_of_eq {current target : String} (h : current = target) :
    animSwitch current target = (current, []) := by
  simp [animSwitch, h]

lemma animSwitch_self (t : String) : animSwitch t t = (t, []) := by
  simp [animSwitch]

/-- A unit horizontal vector satisfies `x ^ 2 + z ^ 2 = 1`. -/
lemma unit_horizontal_sq (v : Vec3) (h1 : Vec3.length v = 1) (h0 : v.y = 0) :
    v.x ^ 2 + v.z ^ 2 = 1 := by
  unfold Vec3.length at h1
  rw [Real.sqrt_eq_one] at h1
  rw [h0] at h1
  linarith [h1]

lemma cross_up_horizontal (u : Vec3) :
    Vec3.cross ⟨0, 1, 0⟩ u = ⟨u.z, 0, -u.x⟩ := by
  ext <;> simp [Vec3.cross]

lemma flatCameraDir_y (cam : Vec3) : (flatCameraDir cam).y = 0 :=
  Vec3.normalize_y_zero _ (flatten_y cam)

lemma flatCameraDir_length (cam : Vec3) (hc : flatten cam ≠ 0) :
    Vec3.length (flatCameraDir cam) = 1 :=
  Vec3.length_normalize _ hc

lemma cameraRight_eq (cam : Vec3) (hc : flatten cam ≠ 0) :
    cameraRight cam = ⟨(flatCameraDir cam).z, 0, -(flatCameraDir cam).x⟩ := by
  have hu := unit_horizontal_sq (flatCameraDir cam) (flatCameraDir_length cam hc)
    (flatCameraDir_y cam)
  unfold cameraRight
  rw [cross_up_horizontal]
  apply Vec3.normalize_of_length_one
  unfold Vec3.length
  rw [Real.sqrt_eq_one]
  dsimp only
  nlinarith [hu]

/-- The combined (unnormalized) world-space move vector is already a unit
vector whenever the intent and the flattened camera direction are both
non-zero. -/
lemma length_preMove (keys : KeySet) (cam : Vec3)
    (hk : moveDirectionOf keys ≠ 0) (hc : flatten cam ≠ 0) :
    Vec3.length
      (Vec3.scale (-(Vec3.normalize (moveDirectionOf keys)).z) (flatCameraDir cam)
        + Vec3.scale (Vec3.normalize (moveDirectionOf keys)).x (cameraRight cam)) = 1 := by
  have hu1 := flatCameraDir_length cam hc
  have hu0 := flatCameraDir_y cam
  have hi1 : Vec3.length (Vec3.normalize (moveDirectionOf keys)) = 1 :=
    Vec3.length_normalize _ hk
  have hi0 : (Vec3.normalize (moveDirectionOf keys)).y = 0 :=
    Vec3.normalize_y_zero _ (moveDirectionOf_y keys)
  have husq := unit_horizontal_sq _ hu1 hu0
  have hisq := unit_horizontal_sq _ hi1 hi0
  rw [cameraRight_eq cam hc]
  unfold Vec3.length
  rw [Real.sqrt_eq_one]
  simp only [Vec3.add_x, Vec3.add_y, Vec3.add_z, Vec3.scale_x, Vec3.scale_y,
    Vec3.scale_z, hu0, hi0]
  nlinarith [husq, hisq]

lemma speedOf_pos (toggleRun : Bool) : 0 < speedOf toggleRun := by
  cases toggleRun <;> norm_num [speedOf, walkSpeed, runSpeed]

/-- The committed displacement has magnitude exactly `speed * delta` when
the intent is non-zero and the camera is not looking straight up/down. -/
lemma length_displacementOf (toggleRun : Bool) (delta : ℝ) (keys : KeySet)
    (cam : Vec3) (hk : moveDirectionOf keys ≠ 0) (hc : flatten cam ≠ 0)
    (hd : 0 ≤ delta) :
    Vec3.length (displacementOf toggleRun delta keys cam)
      = speedOf toggleRun * delta := by
  have hpre := length_preMove keys cam hk hc
  have hne : (Vec3.scale (-(Vec3.normalize (moveDirectionOf keys)).z) (flatCameraDir cam)
        + Vec3.scale (Vec3.normalize (moveDirectionOf keys)).x (cameraRight cam)) ≠ 0 := by
    intro hzero
    rw [hzero] at hpre
    simp at hpre
  unfold displacementOf
  rw [Vec3.length_scale, Vec3.length_normalize _ hne, mul_one, abs_of_nonneg]
  exact mul_nonneg (le_of_lt (speedOf_pos toggleRun)) hd

lemma cross_zero_right (a : Vec3) : Vec3.cross a 0 = 0 := by
  ext <;> simp [Vec3.cross]

/-- When the camera looks straight up or down, the flattened direction is
the zero vector and the whole movement pipeline collapses to zero. -/
lemma displacementOf_of_flat_zero (toggleRun : Bool) (delta : ℝ) (keys : KeySet)
    (cam : Vec3) (hc : flatten cam = 0) :
    displacementOf toggleRun delta keys cam = 0 := by
  have hu : flatCameraDir cam = 0 := by
    unfold flatCameraDir
    rw [hc, Vec3.normalize_zero_v]
  have hr : cameraRight cam = 0 := by
    unfold cameraRight
    rw [hu, cross_zero_right, Vec3.normalize_zero_v]
  unfold displacementOf
  rw [hu, hr]
  simp

/-- Branch characterization: in the Locked state with non-zero intent the
camera rig is moved by `displacementOf` and the model snapped under it. -/
lemma CCupdate_locked_moving (st : CCState) (delta : ℝ) (keys : KeySet) (cam : Vec3)
    (hm : 0 < Vec3.length (moveDirectionOf keys)) :
    (CCupdate st delta keys cam true).1.controlsPos
      = st.controlsPos + displacementOf st.toggleRun delta keys cam ∧
    (CCupdate st delta keys cam true).1.modelPos
      = ⟨(st.controlsPos + displacementOf st.toggleRun delta keys cam).x,
         (st.controlsPos + displacementOf st.toggleRun delta keys cam).y - cameraHeight,
         (st.controlsPos + displacementOf st.toggleRun delta keys cam).z⟩ := by
  constructor <;> simp [CCupdate, hm]

/-- Branch characterization: in the Locked state with zero intent neither
position is touched. -/
lemma CCupdate_locked_idle (st : CCState) (delta : ℝ) (keys : KeySet) (cam : Vec3)
    (hm : ¬ 0 < Vec3.length (moveDirectionOf keys)) :
    (CCupdate st delta keys cam true).1.controlsPos = st.controlsPos ∧
    (CCupdate st delta keys cam true).1.modelPos = st.modelPos := by
  constructor <;> simp [CCupdate, hm]

/-- The eye (camera-rig) and feet (model) representations agree: the model
sits `cameraHeight` below the controls object at the same x/z. -/
def eyeFeetSync (st : CCState) : Prop :=
  st.modelPos.x = st.controlsPos.x ∧ st.modelPos.z = st.controlsPos.z ∧
  st.modelPos.y = st.controlsPos.y - cameraHeight

/-! ## Claims about `CharacterControls.update` -/

/-- Claim C3: in the Unlocked state (`controls.isLocked` false) the result
of `update` is independent of the held-key set — two runs with different
`keysPressed` but the same state and camera end identically — and the
model position is re-derived from the camera-rig transform alone (eye
point minus `cameraHeight`), the facing from the camera heading; the
Unlocked branch of this variant performs no collision query (the update
takes no physics input at all). -/
theorem unlocked_ignores_keys (st : CCState) (delta : ℝ) (k1 k2 : KeySet)
    (cam : Vec3) :
    CCupdate st delta k1 cam false = CCupdate st delta k2 cam false ∧
    (CCupdate st delta k1 cam false).1.modelPos
      = ⟨st.controlsPos.x, st.controlsPos.y - cameraHeight, st.controlsPos.z⟩ ∧
    (CCupdate st delta k1 cam false).1.modelRotY
      = atan2 (flatCameraDir cam).x (flatCameraDir cam).z + Real.pi :=
  ⟨rfl, rfl, rfl⟩

/-- Claim C8: opposing movement keys cancel axis-wise: holding `W` with
`S` zeroes the forward intent, holding `A` with `D` zeroes the strafe
intent, and when each axis holds an opposing (or empty) pair the total
intent is zero and the frame commits no displacement at all. -/
theorem opposing_keys_cancel (keys : KeySet) (st : CCState) (delta : ℝ)
    (cam : Vec3) :
    (keys.w = true → keys.s = true → (moveDirectionOf keys).z = 0) ∧
    (keys.a = true → keys.d = true → (moveDirectionOf keys).x = 0) ∧
    (keys.w = keys.s → keys.a = keys.d →
      moveDirectionOf keys = 0 ∧
      (CCupdate st delta keys cam true).1.controlsPos = st.controlsPos ∧
      (CCupdate st delta keys cam true).1.modelPos = st.modelPos) := by
  refine ⟨fun hw hs => by simp [moveDirectionOf, hw, hs],
          fun ha hd => by simp [moveDirectionOf, ha, hd],
          fun hws had => ?_⟩
  have hzero : moveDirectionOf keys = 0 := by
    ext <;> simp [moveDirectionOf, hws, had]
  have hm : ¬ 0 < Vec3.length (moveDirectionOf keys) := by
    rw [hzero, Vec3.length_zero_v]
    exact lt_irrefl 0
  exact ⟨hzero, CCupdate_locked_idle st delta keys cam hm⟩

/-- Claim C8 witness: holding exactly `W` and `S` yields zero intent and an
unchanged position. -/
theorem opposing_keys_cancel_w :
    (⟨true, false, true, false⟩ : KeySet).w = true ∧
    moveDirectionOf ⟨true, false, true, false⟩ = 0 ∧
    (CCupdate ⟨⟨1, 2, 3⟩, 0, ⟨4, 5, 6⟩, "Idle", true⟩ (1/60)
        ⟨true, false, true, false⟩ ⟨0, 0, 1⟩ true).1.controlsPos = ⟨4, 5, 6⟩ := by
  have h := opposing_keys_cancel ⟨true, false, true, false⟩
    ⟨⟨1, 2, 3⟩, 0, ⟨4, 5, 6⟩, "Idle", true⟩ (1/60) ⟨0, 0, 1⟩
  exact ⟨rfl, (h.2.2 rfl rfl).1, (h.2.2 rfl rfl).2.1⟩

/-- Claim C10 (amended): after an Unlocked-branch update, and after a
Locked-branch update with non-zero intent, the model sits exactly
`cameraHeight` below the controls object at the same x/z; in a Locked
frame with zero intent both positions are left untouched, so the relation
is preserved but not (re-)established. -/
theorem eye_feet_sync (st : CCState) (delta : ℝ) (keys : KeySet) (cam : Vec3)
    (isLocked : Bool) :
    (isLocked = false → eyeFeetSync (CCupdate st delta keys cam isLocked).1) ∧
    (isLocked = true → 0 < Vec3.length (moveDirectionOf keys) →
      eyeFeetSync (CCupdate st delta keys cam isLocked).1) ∧
    (isLocked = true → ¬ 0 < Vec3.length (moveDirectionOf keys) →
      (CCupdate st delta keys cam isLocked).1.modelPos = st.modelPos ∧
      (CCupdate st delta keys cam isLocked).1.controlsPos = st.controlsPos) ∧
    (eyeFeetSync st → eyeFeetSync (CCupdate st delta keys cam isLocked).1) := by
  refine ⟨?_, ?_, ?_, ?_⟩
  · rintro rfl
    simp [CCupdate, eyeFeetSync]
  · rintro rfl hm
    have h := CCupdate_locked_moving st delta keys cam hm
    rw [eyeFeetSync, h.1, h.2]
    exact ⟨rfl, rfl, rfl⟩
  · rintro rfl hm
    exact ⟨(CCupdate_locked_idle st delta keys cam hm).2,
           (CCupdate_locked_idle st delta keys cam hm).1⟩
  · intro hsync
    cases isLocked with
    | false => simp [CCupdate, eyeFeetSync]
    | true =>
      by_cases hm : 0 < Vec3.length (moveDirectionOf keys)
      · have h := CCupdate_locked_moving st delta keys cam hm
        rw [eyeFeetSync, h.1, h.2]
        exact ⟨rfl, rfl, rfl⟩
      · have h := CCupdate_locked_idle st delta keys cam hm
        rw [eyeFeetSync, h.1, h.2]
        exact hsync

/-- Claim C10 witness: an Unlocked update re-establishes the eye/feet
relation even from a desynchronized pre-state. -/
theorem eye_feet_sync_w :
    eyeFeetSync (CCupdate ⟨⟨10, 0, 10⟩, 0, ⟨10, 1.65, 10⟩, "Idle", true⟩ (1/60)
      ⟨false, false, false, false⟩ ⟨0, 0, 1⟩ false).1 :=
  (eye_feet_sync ⟨⟨10, 0, 10⟩, 0, ⟨10, 1.65, 10⟩, "Idle", true⟩ (1/60)
    ⟨false, false, false, false⟩ ⟨0, 0, 1⟩ false).1 rfl

/-- Claim C10 counterexample: a Locked update with no keys held leaves
both positions untouched, so from the pre-state that `index.ts` actually
creates (model at y = 0, controls at eye height 1.65 while `cameraHeight`
is 1.8) the claimed relation `model.y = controls.y - cameraHeight` does
not hold after the call. -/
theorem eye_feet_sync_claim_cex :
    ¬ ((CCupdate ⟨⟨10, 0, 10⟩, 0, ⟨10, 1.65, 10⟩, "Idle", true⟩ (1/60)
          ⟨false, false, false, false⟩ ⟨0, 0, 1⟩ true).1.modelPos.y
        = (CCupdate ⟨⟨10, 0, 10⟩, 0, ⟨10, 1.65, 10⟩, "Idle", true⟩ (1/60)
          ⟨false, false, false, false⟩ ⟨0, 0, 1⟩ true).1.controlsPos.y
          - cameraHeight) := by
  have hzero : moveDirectionOf ⟨false, false, false, false⟩ = 0 := by
    ext <;> simp [moveDirectionOf]
  have hm : ¬ 0 < Vec3.length (moveDirectionOf ⟨false, false, false, false⟩) := by
    rw [hzero, Vec3.length_zero_v]
    exact lt_irrefl 0
  have h := CCupdate_locked_idle ⟨⟨10, 0, 10⟩, 0, ⟨10, 1.65, 10⟩, "Idle", true⟩
    (1/60) ⟨false, false, false, false⟩ ⟨0, 0, 1⟩ hm
  rw [h.1, h.2]
  norm_num [cameraHeight]

/-- Claim C6: in a Locked frame, if the resolved clip differs from the
currently playing one, the update issues exactly one `fadeOut` on the old
clip followed by exactly one `reset`, `fadeIn` and `play` on the new
clip (before the unconditional mixer advance), and `currentAction` equals
the new clip immediately afterwards; if the resolved clip equals the
current one, no fade calls are issued at all. -/
theorem anim_transition_pairing (st : CCState) (delta : ℝ) (keys : KeySet)
    (cam : Vec3) :
    (st.currentAction ≠ resolvedClip st.toggleRun keys →
      (CCupdate st delta keys cam true).2 =
        [AnimCmd.fadeOut st.currentAction 0.2,
         AnimCmd.reset (resolvedClip st.toggleRun keys),
         AnimCmd.fadeIn (resolvedClip st.toggleRun keys) 0.2,
         AnimCmd.play (resolvedClip st.toggleRun keys),
         AnimCmd.mixerUpdate delta] ∧
      (CCupdate st delta keys cam true).1.currentAction
        = resolvedClip st.toggleRun keys) ∧
    (st.currentAction = resolvedClip st.toggleRun keys →
      (CCupdate st delta keys cam true).2 = [AnimCmd.mixerUpdate delta] ∧
      (CCupdate st delta keys cam true).1.currentAction = st.currentAction) := by
  by_cases hm : 0 < Vec3.length (moveDirectionOf keys)
  · have hres : resolvedClip st.toggleRun keys
        = (if st.toggleRun then "Run" else "Walk") := by
      simp [resolvedClip, hm]
    constructor
    · intro hne
      rw [hres] at hne
      rw [hres]
      simp [CCupdate, hm, animSwitch_of_ne hne]
    · intro heq
      rw [hres] at heq
      simp [CCupdate, hm, heq, animSwitch_self]
  · have hres : resolvedClip st.toggleRun keys = "Idle" := by
      simp [resolvedClip, hm]
    constructor
    · intro hne
      rw [hres] at hne
      rw [hres]
      simp [CCupdate, hm, animSwitch_of_ne hne]
    · intro heq
      rw [hres] at heq
      simp [CCupdate, hm, heq, animSwitch_self]

/-- The key set with only `W` held, used as a concrete frame input. -/
def wKeys : KeySet := ⟨true, false, false, false⟩

lemma moveDirectionOf_wKeys : moveDirectionOf wKeys = ⟨0, 0, -1⟩ := by
  ext <;> simp [moveDirectionOf, wKeys]

lemma length_moveDirectionOf_wKeys : Vec3.length (moveDirectionOf wKeys) = 1 := by
  rw [moveDirectionOf_wKeys]
  unfold Vec3.length
  dsimp only
  rw [show (0 : ℝ) ^ 2 + 0 ^ 2 + (-1) ^ 2 = 1 by norm_num, Real.sqrt_one]

lemma moveDirectionOf_wKeys_ne : moveDirectionOf wKeys ≠ 0 := by
  rw [moveDirectionOf_wKeys]
  simp

lemma resolvedClip_run_wKeys : resolvedClip true wKeys = "Run" := by
  rw [resolvedClip, length_moveDirectionOf_wKeys]
  norm_num

/-- Claim C6 witness: starting `Idle` with `W` held and run toggled on,
the update cross-fades `Idle` out and `Run` in, and `currentAction`
becomes `Run`. -/
theorem anim_transition_pairing_w :
    ("Idle" : String) ≠ resolvedClip true wKeys ∧
    (CCupdate ⟨⟨0, 0, 0⟩, 0, ⟨0, 1.8, 0⟩, "Idle", true⟩ (1/10) wKeys
        ⟨0, 0, 1⟩ true).2 =
      [AnimCmd.fadeOut "Idle" 0.2, AnimCmd.reset "Run", AnimCmd.fadeIn "Run" 0.2,
       AnimCmd.play "Run", AnimCmd.mixerUpdate (1/10)] ∧
    (CCupdate ⟨⟨0, 0, 0⟩, 0, ⟨0, 1.8, 0⟩, "Idle", true⟩ (1/10) wKeys
        ⟨0, 0, 1⟩ true).1.currentAction = "Run" := by
  have hne : ("Idle" : String) ≠ resolvedClip true wKeys := by
    rw [resolvedClip_run_wKeys]
    decide
  have h := (anim_transition_pairing ⟨⟨0, 0, 0⟩, 0, ⟨0, 1.8, 0⟩, "Idle", true⟩
    (1/10) wKeys ⟨0, 0, 1⟩).1 hne
  rw [resolvedClip_run_wKeys] at h
  exact ⟨hne, h.1, h.2⟩

/-- Claim C4 (amended): with a non-zero intent, a nonnegative `delta` and
a camera whose flattened direction is non-zero, the committed per-frame
displacement has magnitude exactly `speed * delta`, uniformly over all
held-key combinations (axis-aligned or diagonal), because both the intent
and the combined world-space direction are normalized before scaling; if
the camera looks straight up or down (flattened direction zero) the
committed displacement is zero instead. -/
theorem displacement_magnitude (st : CCState) (delta : ℝ) (keys : KeySet)
    (cam : Vec3) (hk : moveDirectionOf keys ≠ 0) (hd : 0 ≤ delta) :
    (flatten cam ≠ 0 →
      Vec3.length ((CCupdate st delta keys cam true).1.controlsPos - st.controlsPos)
        = speedOf st.toggleRun * delta) ∧
    (flatten cam = 0 →
      (CCupdate st delta keys cam true).1.controlsPos = st.controlsPos) := by
  have hm : 0 < Vec3.length (moveDirectionOf keys) := Vec3.length_pos_of_ne _ hk
  have hch := (CCupdate_locked_moving st delta keys cam hm).1
  constructor
  · intro hc
    rw [hch, Vec3.add_sub_cancel_v,
      length_displacementOf st.toggleRun delta keys cam hk hc hd]
  · intro hc
    rw [hch, displacementOf_of_flat_zero st.toggleRun delta keys cam hc,
      Vec3.add_zero_v]

/-- Claim C4 witness: with `W` held, run on, `delta = 0.1` and the camera
facing world +Z, the frame moves the rig by exactly `5.0 * 0.1 = 0.5`. -/
theorem displacement_magnitude_w :
    moveDirectionOf wKeys ≠ 0 ∧
    Vec3.length ((CCupdate ⟨⟨0, 0, 0⟩, 0, ⟨0, 1.8, 0⟩, "Idle", true⟩ (1/10)
        wKeys ⟨0, 0, 1⟩ true).1.controlsPos - ⟨0, 1.8, 0⟩)
      = speedOf true * (1/10) := by
  have hflat : flatten (⟨0, 0, 1⟩ : Vec3) ≠ 0 := by
    intro h
    have := congrArg Vec3.z h
    simp [flatten] at this
  exact ⟨moveDirectionOf_wKeys_ne,
    (displacement_magnitude ⟨⟨0, 0, 0⟩, 0, ⟨0, 1.8, 0⟩, "Idle", true⟩ (1/10)
      wKeys ⟨0, 0, 1⟩ moveDirectionOf_wKeys_ne (by norm_num)).1 hflat⟩

/-- Claim C4 counterexample: with `W` held, run on and `delta = 0.1`, but
the camera looking straight down (world direction `(0,-1,0)`, so the
flattened direction is the zero vector), the committed displacement is
zero — not `speed * delta = 0.5` — refuting the unconditional claim. -/
theorem displacement_magnitude_claim_cex :
    ¬ (Vec3.length ((CCupdate ⟨⟨0, 0, 0⟩, 0, ⟨0, 1.8, 0⟩, "Idle", true⟩ (1/10)
        wKeys ⟨0, -1, 0⟩ true).1.controlsPos - ⟨0, 1.8, 0⟩)
      = speedOf true * (1/10)) := by
  have hm : 0 < Vec3.length (moveDirectionOf wKeys) :=
    Vec3.length_pos_of_ne _ moveDirectionOf_wKeys_ne
  have hflat : flatten (⟨0, -1, 0⟩ : Vec3) = 0 := by
    ext <;> simp [flatten]
  have hch := (CCupdate_locked_moving ⟨⟨0, 0, 0⟩, 0, ⟨0, 1.8, 0⟩, "Idle", true⟩
    (1/10) wKeys ⟨0, -1, 0⟩ hm).1
  rw [hch, displacementOf_of_flat_zero true (1/10) wKeys ⟨0, -1, 0⟩ hflat,
    Vec3.add_zero_v, Vec3.sub_self_v, Vec3.length_zero_v]
  norm_num [speedOf, runSpeed]

/-! ## PhysicsManager -/

/-- A static collision mesh registered with the physics manager, reduced
to the data the bounding-box fallback loop reads: its origin
(`mesh.position`) and its world-space axis-aligned bounding box
(`geometry.boundingBox` transformed by `matrixWorld`). -/
structure MeshB where
  origin : Vec3
  boxMin : Vec3
  boxMax : Vec3

/-- three.js `Box3.clampPoint`: the componentwise clamp of a point into
the box. -/
def clampPoint (bmin bmax p : Vec3) : Vec3 :=
  ⟨max bmin.x (min bmax.x p.x), max bmin.y (min bmax.y p.y),
   max bmin.z (min bmax.z p.z)⟩

/-- The `try`-block body of `checkCharacterCollision` (bounding-box
fallback variant): for each registered rigid-body mesh, the mesh is
skipped (`continue`) when its origin is farther than `radius * 5` from
the queried position; otherwise the position is clamped into the world
bounding box of the mesh and a collision is reported when the clamped point
lies strictly within `radius` of the position. -/
noncomputable def collisionLoop (bodies : List MeshB) (pos : Vec3) (radius : ℝ) :
    Bool :=
  bodies.any fun m =>
    if Vec3.distanceTo m.origin pos > radius * 5 then false
    else if Vec3.distanceTo pos (clampPoint m.boxMin m.boxMax pos) < radius then
      true
    else false

/-- The method `PhysicsManager.checkCharacterCollision` (fallback variant): the
guard `!isInitialized || !physicsWorld || !ammo` (collapsed here to the
single flag, since all three are set together by `init`) returns `false`
before anything runs; the loop runs inside a `try` whose `catch` logs the
error and returns `false`. `exc` models whether the engine calls inside
the `try` block raise (`some` = an exception with that message). -/
noncomputable def checkCharacterCollision (isInitialized : Bool)
    (exc : Option String) (bodies : List MeshB) (pos : Vec3) (radius : ℝ) :
    Bool :=
  if isInitialized = false then false
  else
    match exc with
    | some _ => false
    | none => collisionLoop bodies pos radius

/-- An object overlapping the character ghost, reduced to the user index
the loop reads (`999` marks floors). -/
structure OverlapObj where
  userIndex : Int

/-- The `try`-block body of `checkGhostCollision`: floor objects
(user index 999) are skipped; any other overlapping object is a
collision. -/
def overlapLoop (overlaps : List OverlapObj) : Bool :=
  overlaps.any fun o => if o.userIndex = 999 then false else true

/-- The method `PhysicsManager.checkGhostCollision` (ghost variant): returns `false`
when physics is uninitialized or no ghost object exists; the overlap scan
runs inside a `try` whose `catch` logs and returns `false`. -/
def checkGhostCollision (isInitialized hasGhost : Bool) (exc : Option String)
    (overlaps : List OverlapObj) : Bool :=
  if isInitialized = false ∨ hasGhost = false then false
  else
    match exc with
    | some _ => false
    | none => overlapLoop overlaps

/-- Claim C2: both collision entry points fail open and never propagate:
with physics uninitialized every query returns `false` (every position
treated as collision-free) for any loop outcome, and an exception raised
inside the check is caught and also yields `false` for that frame. -/
theorem collision_check_fail_open :
    (∀ (exc : Option String) (bodies : List MeshB) (pos : Vec3) (radius : ℝ),
      checkCharacterCollision false exc bodies pos radius = false) ∧
    (∀ (e : String) (bodies : List MeshB) (pos : Vec3) (radius : ℝ),
      checkCharacterCollision true (some e) bodies pos radius = false) ∧
    (∀ (hasGhost : Bool) (exc : Option String) (overlaps : List OverlapObj),
      checkGhostCollision false hasGhost exc overlaps = false) ∧
    (∀ (isInitialized : Bool) (exc : Option String) (overlaps : List OverlapObj),
      checkGhostCollision isInitialized false exc overlaps = false) ∧
    (∀ (e : String) (overlaps : List OverlapObj),
      checkGhostCollision true true (some e) overlaps = false) := by
  refine ⟨fun exc bodies pos radius => rfl,
          fun e bodies pos radius => rfl,
          fun hasGhost exc overlaps => by simp [checkGhostCollision],
          fun isInitialized exc overlaps => by simp [checkGhostCollision],
          fun e overlaps => by simp [checkGhostCollision]⟩

/-- Claim C9: in the bounding-box fallback variant, every registered mesh
whose origin is farther than `radius * 5` from the queried position is
skipped, so when all registered meshes are that far away the call returns
`false` — even when the bounding box of such a mesh actually overlaps the query
sphere (see the witness). -/
theorem distant_mesh_skipped (bodies : List MeshB) (pos : Vec3) (radius : ℝ)
    (h : ∀ m ∈ bodies, Vec3.distanceTo m.origin pos > radius * 5) :
    checkCharacterCollision true none bodies pos radius = false := by
  unfold checkCharacterCollision
  rw [if_neg (by simp)]
  unfold collisionLoop
  rw [List.any_eq_false]
  intro m hm
  rw [if_pos (h m hm)]
  simp

/-- Claim C9 witness: a single mesh whose bounding box contains the
queried position (the clamped point is the position itself, distance `0 <
radius`) but whose origin is `10 > radius * 5` away is never reported. -/
theorem distant_mesh_skipped_w :
    Vec3.distanceTo (⟨10, 0, 0⟩ : Vec3) (⟨0, 0, 0⟩ : Vec3) > 1 * 5 ∧
    Vec3.distanceTo (⟨0, 0, 0⟩ : Vec3)
      (clampPoint ⟨-100, -100, -100⟩ ⟨100, 100, 100⟩ ⟨0, 0, 0⟩) < 1 ∧
    checkCharacterCollision true none
      [⟨⟨10, 0, 0⟩, ⟨-100, -100, -100⟩, ⟨100, 100, 100⟩⟩] ⟨0, 0, 0⟩ 1 = false := by
  have hdist : Vec3.distanceTo (⟨10, 0, 0⟩ : Vec3) (⟨0, 0, 0⟩ : Vec3) = 10 := by
    unfold Vec3.distanceTo Vec3.length
    simp only [Vec3.sub_x, Vec3.sub_y, Vec3.sub_z]
    rw [show ((10:ℝ) - 0) ^ 2 + (0 - 0) ^ 2 + (0 - 0) ^ 2 = 10 ^ 2 by norm_num,
      Real.sqrt_sq (by norm_num : (0:ℝ) ≤ 10)]
  have hfar : Vec3.distanceTo (⟨10, 0, 0⟩ : Vec3) (⟨0, 0, 0⟩ : Vec3) > 1 * 5 := by
    rw [hdist]; norm_num
  have hclamp : clampPoint ⟨-100, -100, -100⟩ ⟨100, 100, 100⟩ ⟨0, 0, 0⟩
      = (⟨0, 0, 0⟩ : Vec3) := by
    unfold clampPoint
    ext <;> norm_num
  refine ⟨hfar, ?_, ?_⟩
  · rw [hclamp]
    unfold Vec3.distanceTo
    rw [Vec3.sub_self_v, Vec3.length_zero_v]
    norm_num
  · apply distant_mesh_skipped
    intro m hm
    rw [List.mem_singleton] at hm
    subst hm
    exact hfar

/-- One invocation of the external physics engine entry `stepSimulation`. -/
structure StepCall where
  timeStep : ℝ
  maxSubSteps : ℕ
  fixedTimeStep : ℝ

/-- The method `PhysicsManager.update` (ghost variant): when initialized it invokes
`stepSimulation(deltaTime, maxSubSteps = 10, fixedTimeStep = 1/60)`
exactly once; when not initialized it returns before stepping. The list
records the engine invocations made during the call. -/
noncomputable def physicsUpdateCalls (isInitialized : Bool) (deltaTime : ℝ) :
    List StepCall :=
  if isInitialized then [⟨deltaTime, 10, 1/60⟩] else []

/-- The `animate` frame loop (`index.ts`): `physicsManager.update(delta)`
runs only under `physicsManager.isPhysicsInitialized()`. -/
noncomputable def frameStepCalls (isInitialized : Bool) (deltaTime : ℝ) :
    List StepCall :=
  if isInitialized then physicsUpdateCalls isInitialized deltaTime else []

/-- The documented Bullet `stepSimulation` clamping (external collaborator
semantics): at most `maxSubSteps` fixed-size internal steps are executed
per invocation, however large `timeStep` is. -/
noncomputable def substepsExecuted (c : StepCall) : ℕ :=
  min c.maxSubSteps (Int.toNat ⌊c.timeStep / c.fixedTimeStep⌋)

/-- Claim C7 (amended): in every frame in which the physics engine is
initialized, the simulation step is invoked exactly once, with fixed
internal timestep `1/60` and at most `10` sub-steps (so the per-frame
sub-step work is bounded by 10 regardless of `deltaTime`); in a frame
before initialization completes it is not invoked at all. -/
theorem step_once_per_frame (delta : ℝ) :
    frameStepCalls true delta = [⟨delta, 10, 1/60⟩] ∧
    frameStepCalls false delta = [] ∧
    substepsExecuted ⟨delta, 10, 1/60⟩ ≤ 10 :=
  ⟨rfl, rfl, Nat.min_le_left _ _⟩

/-- Claim C7 counterexample: in a frame rendered before the asynchronous
physics initialization completes (the `animate` loop starts immediately,
`init` resolves later), the step is invoked zero times, not once. -/
theorem step_once_claim_cex : (frameStepCalls false (1/100)).length ≠ 1 := by
  simp [frameStepCalls]

/-! ## The collision-aware Reconciler, modelled from the spec

The collision-aware `CharacterControls.update` variant of the repository (the
one `index.ts` wires up through `setPhysicsManager`/`setMapManager` and
an 8-argument constructor) is not present under the source tree — only
its callers are. The definitions below follow the wording of spec §4.1 step 5
wording for the missing commit step. -/

/-- Modelled from the spec: the X-only reduction of a tentative
displacement (spec §4.1 step 5, "X-only displacement"). -/
def xOnly (v : Vec3) : Vec3 := ⟨v.x, 0, 0⟩

/-- Modelled from the spec: the Z-only reduction of a tentative
displacement (spec §4.1 step 5, "Z-only displacement"). -/
def zOnly (v : Vec3) : Vec3 := ⟨0, 0, v.z⟩

/-- Modelled from the spec: the commit step of the Movement/Collision
Reconciler (spec §4.1 step 5). Query the Physics Collaborator at the
tentative position; if collision-free commit the full move; otherwise
attempt the X-only and the Z-only displacement, each independently
validated and committed only if individually collision-free (neither,
either, or both axes may commit). -/
def resolveMove (collide : Vec3 → Bool) (pos mv : Vec3) : Vec3 :=
  if collide (pos + mv) = false then pos + mv
  else
    pos + (if collide (pos + xOnly mv) = false then xOnly mv else 0)
        + (if collide (pos + zOnly mv) = false then zOnly mv else 0)

/-- Modelled from the spec: the per-frame state of the collision-aware
Reconciler (character position, facing, run toggle). -/
structure ReconcilerState where
  pos : Vec3
  facing : ℝ
  toggleRun : Bool

/-- Modelled from the spec: one Locked frame of the collision-aware
Reconciler (spec §4.1 steps 1–5): build the intent, flatten the camera
direction, set facing = yaw + π, and, when the intent is non-zero,
validate and commit the scaled world-space displacement with
axis-decomposed sliding. -/
noncomputable def specReconcile (collide : Vec3 → Bool) (st : ReconcilerState)
    (delta : ℝ) (keys : KeySet) (cam : Vec3) : ReconcilerState :=
  let u := flatCameraDir cam
  let facing := atan2 u.x u.z + Real.pi
  if 0 < Vec3.length (moveDirectionOf keys) then
    { st with
        pos := resolveMove collide st.pos (displacementOf st.toggleRun delta keys cam),
        facing := facing }
  else
    { st with facing := facing }

/-- Claim C1 (spec-modelled): in every frame whose full tentative move
collides, the Reconciler validates the X-only and the Z-only
displacement independently against the collision predicate, and the
committed displacement equals the sum of whichever single-axis moves
were individually collision-free — so neither, either, or both axes may
commit. -/
theorem slide_commits_free_axes (collide : Vec3 → Bool) (st : ReconcilerState)
    (delta : ℝ) (keys : KeySet) (cam : Vec3)
    (hm : 0 < Vec3.length (moveDirectionOf keys))
    (hc : collide (st.pos + displacementOf st.toggleRun delta keys cam) = true) :
    (specReconcile collide st delta keys cam).pos - st.pos
      = (if collide (st.pos + xOnly (displacementOf st.toggleRun delta keys cam))
            = false
         then xOnly (displacementOf st.toggleRun delta keys cam) else 0)
      + (if collide (st.pos + zOnly (displacementOf st.toggleRun delta keys cam))
            = false
         then zOnly (displacementOf st.toggleRun delta keys cam) else 0) := by
  unfold specReconcile
  rw [if_pos hm]
  dsimp only
  unfold resolveMove
  rw [if_neg (by rw [hc]; simp)]
  ext <;> simp <;> ring

/-- Claim C5 (spec-modelled): in every frame where the full tentative
move and both axis-decomposed moves all collide, the position is
unchanged while the facing is still updated to the camera heading. -/
theorem blocked_both_axes (collide : Vec3 → Bool) (st : ReconcilerState)
    (delta : ℝ) (keys : KeySet) (cam : Vec3)
    (hm : 0 < Vec3.length (moveDirectionOf keys))
    (hc : collide (st.pos + displacementOf st.toggleRun delta keys cam) = true)
    (hx : collide (st.pos + xOnly (displacementOf st.toggleRun delta keys cam))
        = true)
    (hz : collide (st.pos + zOnly (displacementOf st.toggleRun delta keys cam))
        = true) :
    (specReconcile collide st delta keys cam).pos = st.pos ∧
    (specReconcile collide st delta keys cam).facing
      = atan2 (flatCameraDir cam).x (flatCameraDir cam).z + Real.pi := by
  constructor
  · unfold specReconcile
    rw [if_pos hm]
    dsimp only
    unfold resolveMove
    rw [if_neg (by rw [hc]; simp), if_neg (by rw [hx]; simp),
      if_neg (by rw [hz]; simp)]
    simp
  · unfold specReconcile
    rw [if_pos hm]

/-! ## Concrete evaluations for the reconciler witnesses -/

lemma length_moveDirectionOf_wKeys_pos : 0 < Vec3.length (moveDirectionOf wKeys) := by
  rw [length_moveDirectionOf_wKeys]
  norm_num

lemma normalize_moveDirectionOf_wKeys :
    Vec3.normalize (moveDirectionOf wKeys) = ⟨0, 0, -1⟩ := by
  rw [show (⟨0, 0, -1⟩ : Vec3) = moveDirectionOf wKeys from moveDirectionOf_wKeys.symm]
  exact Vec3.normalize_of_length_one _ length_moveDirectionOf_wKeys

lemma length_345 : Vec3.length ⟨3, 0, 4⟩ = 5 := by
  unfold Vec3.length
  dsimp only
  rw [show (3:ℝ) ^ 2 + 0 ^ 2 + 4 ^ 2 = 5 ^ 2 by norm_num,
    Real.sqrt_sq (by norm_num : (0:ℝ) ≤ 5)]

lemma normalize_345 : Vec3.normalize ⟨3, 0, 4⟩ = ⟨3/5, 0, 4/5⟩ := by
  unfold Vec3.normalize
  rw [length_345, if_neg (by norm_num)]
  ext <;> simp [Vec3.scale] <;> norm_num

lemma length_unit_345 : Vec3.length ⟨3/5, 0, 4/5⟩ = 1 := by
  unfold Vec3.length
  dsimp only
  rw [show (3/5:ℝ) ^ 2 + 0 ^ 2 + (4/5) ^ 2 = 1 by norm_num, Real.sqrt_one]

lemma length_unit_453 : Vec3.length ⟨4/5, 0, -(3/5)⟩ = 1 := by
  unfold Vec3.length
  dsimp only
  rw [show (4/5:ℝ) ^ 2 + 0 ^ 2 + (-(3/5)) ^ 2 = 1 by norm_num, Real.sqrt_one]

/-- With `W` held, run on, `delta = 0.1` and the camera looking along
`(3,0,4)/5`, the tentative displacement evaluates to `(0.3, 0, 0.4)`. -/
lemma displacement_345 :
    displacementOf true (1/10) wKeys ⟨3, 0, 4⟩ = ⟨3/10, 0, 2/5⟩ := by
  unfold displacementOf cameraRight flatCameraDir
  rw [show flatten (⟨3, 0, 4⟩ : Vec3) = ⟨3, 0, 4⟩ from rfl, normalize_345,
    normalize_moveDirectionOf_wKeys]
  dsimp only
  rw [show Vec3.cross ⟨0, 1, 0⟩ ⟨3/5, 0, 4/5⟩ = ⟨4/5, 0, -(3/5)⟩ by
    ext <;> simp]
  rw [Vec3.normalize_of_length_one _ length_unit_453]
  rw [show Vec3.scale (-(Vec3.mk (0:ℝ) 0 (-1)).z) ⟨3/5, 0, 4/5⟩
        + Vec3.scale (Vec3.mk (0:ℝ) 0 (-1)).x ⟨4/5, 0, -(3/5)⟩ = ⟨3/5, 0, 4/5⟩ by
    ext <;> simp [Vec3.scale]]
  rw [Vec3.normalize_of_length_one _ length_unit_345]
  ext <;> simp [Vec3.scale, speedOf, runSpeed] <;> norm_num

/-- A concrete collision predicate for witnesses: a wall filling the
half-space `z > 1/5`. -/
noncomputable def wallZ (p : Vec3) : Bool := if 1/5 < p.z then true else false

/-- Claim C1 witness: moving diagonally into the `wallZ` wall from the
origin (camera `(3,0,4)`, `W` held, run on, `delta = 0.1`): the full move
`(0.3, 0, 0.4)` collides, the X-only move is free and commits, the Z-only
move collides and does not, so the committed displacement is exactly
`(0.3, 0, 0)` — sliding along the wall. -/
theorem slide_commits_free_axes_w :
    0 < Vec3.length (moveDirectionOf wKeys) ∧
    wallZ ((⟨0, 0, 0⟩ : Vec3) + displacementOf true (1/10) wKeys ⟨3, 0, 4⟩)
      = true ∧
    (specReconcile wallZ ⟨⟨0, 0, 0⟩, 0, true⟩ (1/10) wKeys ⟨3, 0, 4⟩).pos
      - ⟨0, 0, 0⟩ = ⟨3/10, 0, 0⟩ := by
  have hfull : wallZ ((⟨0, 0, 0⟩ : Vec3)
      + displacementOf true (1/10) wKeys ⟨3, 0, 4⟩) = true := by
    rw [displacement_345]
    unfold wallZ
    rw [if_pos (by norm_num)]
  have h := slide_commits_free_axes wallZ ⟨⟨0, 0, 0⟩, 0, true⟩ (1/10) wKeys
    ⟨3, 0, 4⟩ length_moveDirectionOf_wKeys_pos hfull
  refine ⟨length_moveDirectionOf_wKeys_pos, hfull, ?_⟩
  rw [h, displacement_345]
  have h1 : wallZ ((⟨0, 0, 0⟩ : Vec3) + xOnly ⟨3/10, 0, 2/5⟩) = false := by
    unfold wallZ xOnly
    rw [if_neg (by norm_num)]
  have h2 : wallZ ((⟨0, 0, 0⟩ : Vec3) + zOnly ⟨3/10, 0, 2/5⟩) = true := by
    unfold wallZ zOnly
    rw [if_pos (by norm_num)]
  rw [h1, h2]
  simp [xOnly]

/-- A collision predicate reporting collision everywhere (the character
boxed in on all sides). -/
def alwaysCollide (_ : Vec3) : Bool := true

/-- Claim C5 witness: boxed in by `alwaysCollide` with `W` held and the
camera facing world +Z, the frame keeps the position at the origin while
the facing still becomes `atan2 0 1 + π = π`. -/
theorem blocked_both_axes_w :
    (specReconcile alwaysCollide ⟨⟨0, 0, 0⟩, 0, true⟩ (1/10) wKeys
      ⟨0, 0, 1⟩).pos = ⟨0, 0, 0⟩ ∧
    (specReconcile alwaysCollide ⟨⟨0, 0, 0⟩, 0, true⟩ (1/10) wKeys
      ⟨0, 0, 1⟩).facing = Real.pi := by
  have h := blocked_both_axes alwaysCollide ⟨⟨0, 0, 0⟩, 0, true⟩ (1/10) wKeys
    ⟨0, 0, 1⟩ length_moveDirectionOf_wKeys_pos rfl rfl rfl
  refine ⟨h.1, ?_⟩
  rw [h.2]
  have hu : flatCameraDir ⟨0, 0, 1⟩ = ⟨0, 0, 1⟩ := by
    unfold flatCameraDir
    rw [show flatten (⟨0, 0, 1⟩ : Vec3) = ⟨0, 0, 1⟩ from rfl]
    refine Vec3.normalize_of_length_one _ ?_
    unfold Vec3.length
    dsimp only
    rw [show (0:ℝ) ^ 2 + 0 ^ 2 + 1 ^ 2 = 1 by norm_num, Real.sqrt_one]
  rw [hu]
  unfold atan2
  dsimp only
  rw [if_pos (by norm_num : (0:ℝ) < 1)]
  norm_num [Real.arctan_zero]

end Skeld
